import Mathlib

/-!
Shallow embedding of the habit-tracker data-maintenance logic
(`src/streamlit_app.py`): the tabular store, `load_habit_data`,
`save_habit_data`, `add_habit`, `ensure_today_exists`, and the
checkbox-toggle app logic, together with proofs of the spec's
testable properties.
-/

set_option maxHeartbeats 1000000

/-- A calendar date as handled by `datetime.date` / pandas timestamps. -/
structure PDate where
  year : Nat
  month : Nat
  day : Nat
deriving DecidableEq, Repr

/-- The decimal digit character for a digit `n < 10`, as produced by
`strftime` (code point 48 is the character zero). -/
def digitChar (n : Nat) : Char :=
  Char.ofNat (48 + n % 10)

/-- Value of a decimal digit character; `none` on a non-digit. -/
def digitVal? (c : Char) : Option Nat :=
  if c.isDigit then some (c.toNat - 48) else none

/-- Gregorian leap-year rule (as used by `datetime`/pandas). -/
def isLeapYear (y : Nat) : Bool :=
  (y % 4 == 0 && y % 100 != 0) || y % 400 == 0

/-- Days in a month of a given year. -/
def daysInMonth (y m : Nat) : Nat :=
  if m = 2 then (if isLeapYear y then 29 else 28)
  else if m = 4 ∨ m = 6 ∨ m = 9 ∨ m = 11 then 30
  else 31

/-- A calendar date pandas can represent as a `datetime64[ns]` timestamp:
month and day in range, year within the pandas `Timestamp` bounds. -/
def validDate (p : PDate) : Bool :=
  1 ≤ p.month && p.month ≤ 12 && 1 ≤ p.day && p.day ≤ daysInMonth p.year p.month
    && 1678 ≤ p.year && p.year ≤ 2261

/-- Rendering by `strftime("%Y-%m-%d")`: the canonical `YYYY-MM-DD` rendering
(year zero-padded to four digits, month and day to two). -/
def formatDate (p : PDate) : String :=
  ⟨[digitChar (p.year / 1000 % 10), digitChar (p.year / 100 % 10),
    digitChar (p.year / 10 % 10), digitChar (p.year % 10), '-',
    digitChar (p.month / 10 % 10), digitChar (p.month % 10), '-',
    digitChar (p.day / 10 % 10), digitChar (p.day % 10)]⟩

/-- Date parsing as `pandas.to_datetime` behaves on the canonical
`YYYY-MM-DD` form written by this program: the ten-character shape with
digit fields, validated against the calendar and the `Timestamp` range. -/
def parseDate (s : String) : Option PDate :=
  match s.data with
  | [y1, y2, y3, y4, c1, m1, m2, c2, d1, d2] =>
    if c1 = '-' ∧ c2 = '-' then
      match digitVal? y1, digitVal? y2, digitVal? y3, digitVal? y4,
            digitVal? m1, digitVal? m2, digitVal? d1, digitVal? d2 with
      | some a, some b, some c, some d, some e, some f, some g, some h =>
        let p : PDate := ⟨a * 1000 + b * 100 + c * 10 + d, e * 10 + f, g * 10 + h⟩
        if validDate p then some p else none
      | _, _, _, _, _, _, _, _ => none
    else none
  | _ => none

/-! ## The in-memory table (pandas `DataFrame`) -/

/-- One stored cell, covering the value kinds a pandas cell can take here:
booleans, strings, parsed dates (`datetime64` entries), integers
(from whole-number columns of a hand-edited store) and missing values
(`NaN`/`NaT`). -/
inductive Cell where
  | cbool (b : Bool)
  | cstr (s : String)
  | cdate (p : PDate)
  | cint (n : Int)
  | cnan
deriving DecidableEq, Repr

/-- The habit `DataFrame`: ordered column names and rows of cells aligned
with the columns. -/
structure Table where
  cols : List String
  rows : List (List Cell)
deriving DecidableEq, Repr

/-- Python `==` between a cell and a string, as used by
`habits_df['Date'] == today_str` and `today_str in df['Date'].values`:
only an equal string compares equal; booleans, timestamps, numbers and
`NaN` never equal a string. -/
def cellEqStr (c : Cell) (s : String) : Bool :=
  match c with
  | .cbool _ => false
  | .cstr t => t == s
  | .cdate _ => false
  | .cint _ => false
  | .cnan => false

/-- Python `bool(...)` truthiness on a cell, as applied by
`bool(habits_df.loc[today_index, habit])`: `False`, the empty string and
zero are falsy; non-empty strings, nonzero numbers, timestamps and `NaN`
are truthy. -/
def pyBool (c : Cell) : Bool :=
  match c with
  | .cbool b => b
  | .cstr s => !(s == "")
  | .cdate _ => true
  | .cint n => !(n == 0)
  | .cnan => true

/-- Position of column `c` in the table (`df.columns` lookup). -/
def colIdx (df : Table) (c : String) : Nat :=
  df.cols.indexOf c

/-- Cell at position `j` of a row; out-of-range reads are `NaN`
(pandas fills short rows with `NaN`). -/
def getCellRow (r : List Cell) (j : Nat) : Cell :=
  r.getD j .cnan

/-- The cell at row `i`, column named `h` (`df.loc[i, h]`). -/
def cellAt (df : Table) (i : Nat) (h : String) : Cell :=
  getCellRow (df.rows.getD i []) (colIdx df h)

/-- The column named `c` as a list of cells (`df[c]`). -/
def getCol (df : Table) (c : String) : List Cell :=
  df.rows.map (fun r => getCellRow r (colIdx df c))

/-! ## `add_habit` -/

/-- The user-visible report emitted by `add_habit`
(`st.success` / `st.warning` / `st.error`). -/
inductive Report where
  | success
  | duplicate
  | emptyName
deriving DecidableEq, Repr

/-- Embedding of `add_habit(habit_name, df)`: if the name is truthy (non-empty) and not
already a column, append a column of that name holding `False` in every
existing row and report success; if the name is already a column, report a
duplicate and return the table unchanged; otherwise report the empty-name
error and return the table unchanged. -/
def add_habit (habit_name : String) (df : Table) : Table × Report :=
  if habit_name ≠ "" ∧ habit_name ∉ df.cols then
    (⟨df.cols ++ [habit_name], df.rows.map (fun r => r ++ [.cbool false])⟩, .success)
  else if habit_name ∈ df.cols then
    (df, .duplicate)
  else
    (df, .emptyName)

/-! ## `ensure_today_exists` -/

/-- Whether a cell is a parsed-date (`datetime64`) entry. -/
def isDateCell (c : Cell) : Bool :=
  match c with
  | .cdate _ => true
  | _ => false

/-- Whether a cell is a string. -/
def isStrCell (c : Cell) : Bool :=
  match c with
  | .cstr _ => true
  | _ => false

/-- Whether a cell is a boolean. -/
def isBoolCell (c : Cell) : Bool :=
  match c with
  | .cbool _ => true
  | _ => false

/-- Check `pd.api.types.is_datetime64_any_dtype` on a column: in every state this
program reaches, a column has datetime dtype exactly when it is non-empty
and all of its entries are parsed dates. -/
def isDatetimeDtype (cells : List Cell) : Bool :=
  !cells.isEmpty && cells.all isDateCell

/-- Action of `.dt.strftime('%Y-%m-%d')` on one entry of a datetime column. -/
def cellToDateStr (c : Cell) : Cell :=
  match c with
  | .cdate p => .cstr (formatDate p)
  | c => c

/-- The fresh row built for `today`: `Date = today_str` and `False` for
every other existing column. -/
def newTodayRow (cols : List String) (todayStr : String) : List Cell :=
  cols.map (fun c => if c = "Date" then .cstr todayStr else .cbool false)

/-- The first step of `ensure_today_exists`: when the `Date` column is of
datetime dtype, `df['Date'] = df['Date'].dt.strftime('%Y-%m-%d')`. -/
def convertDateCol (df : Table) : Table :=
  if isDatetimeDtype (getCol df "Date") then
    ⟨df.cols, df.rows.map
      (fun r => r.set (colIdx df "Date") (cellToDateStr (getCellRow r (colIdx df "Date"))))⟩
  else df

/-- Test `today_str in df['Date'].values`. -/
def hasToday (df : Table) (todayStr : String) : Bool :=
  (getCol df "Date").any (fun c => cellEqStr c todayStr)

/-- Embedding of `ensure_today_exists(df)` with the current date `today` made explicit:
if the `Date` column has datetime dtype, rewrite it to `YYYY-MM-DD`
strings; then, when no `Date` value equals `today_str`, append a row for
today with every habit column `False`. -/
def ensure_today_exists (today : PDate) (df : Table) : Table :=
  let todayStr := formatDate today
  let df1 := convertDateCol df
  if hasToday df1 todayStr then df1
  else ⟨df1.cols, df1.rows ++ [newTodayRow df1.cols todayStr]⟩

/-! ## Checkbox-toggle app logic -/

/-- Selection `habits_df[habits_df['Date'] == today_str].index` followed by
`today_index[0]`: the first row index whose `Date` cell equals `todayStr`,
or `none` when no row matches. -/
def today_index (df : Table) (todayStr : String) : Option Nat :=
  (getCol df "Date").findIdx? (fun c => cellEqStr c todayStr)

/-- Read `bool(habits_df.loc[today_index, habit])`: the boolean read for a
checkbox. -/
def current_value (df : Table) (i : Nat) (habit : String) : Bool :=
  pyBool (cellAt df i habit)

/-- Write `habits_df.loc[today_index, habit] = checked`: set one boolean cell. -/
def setCell (df : Table) (i : Nat) (habit : String) (v : Bool) : Table :=
  ⟨df.cols, df.rows.set i ((df.rows.getD i []).set (colIdx df habit) (.cbool v))⟩

/-! ## The backing store (`habits.csv`) and `save` / `load` -/

/-- The comma-delimited store, structured as its header line and data
lines (cell texts are assumed free of commas, quotes and newlines, which
holds for everything this program writes). -/
structure StoreFile where
  header : List String
  lines : List (List String)
deriving DecidableEq, Repr

/-- How `df.to_csv` renders one cell: booleans as `True`/`False`,
strings verbatim, timestamps in the canonical date form, integers in
decimal, missing values as the empty field. -/
def cellToCsv (c : Cell) : String :=
  match c with
  | .cbool b => if b then "True" else "False"
  | .cstr s => s
  | .cdate p => formatDate p
  | .cint n => toString n
  | .cnan => ""

/-- Embedding of `save_habit_data(df)` / `df.to_csv(HABITS_FILE, index=False)`:
overwrite the store with the header row and one rendered line per row. -/
def save_habit_data (df : Table) : StoreFile :=
  ⟨df.cols, df.rows.map (fun r => r.map cellToCsv)⟩

/-- The dtype `read_csv` infers for one column. -/
inductive ColKind where
  | kdate
  | kbool
  | kint
  | kobj
deriving DecidableEq, Repr

/-- Column typing of `pd.read_csv(..., parse_dates=['Date'])`: the `Date`
column becomes datetime when every entry parses as a date (otherwise
`to_datetime` falls back and ordinary inference applies); a column whose
entries are all `True`/`False` becomes boolean; all-integer columns become
integer; anything else stays an object column with empty fields as `NaN`. -/
def colKind (isDateCol : Bool) (cells : List String) : ColKind :=
  if isDateCol && !cells.isEmpty && cells.all (fun s => (parseDate s).isSome) then .kdate
  else if !cells.isEmpty && cells.all (fun s => s == "True" || s == "False") then .kbool
  else if !cells.isEmpty && cells.all (fun s => (s.toInt?).isSome) then .kint
  else .kobj

/-- Convert one raw field according to its column's inferred dtype. -/
def typeCell (k : ColKind) (s : String) : Cell :=
  match k with
  | .kdate => match parseDate s with
    | some p => .cdate p
    | none => .cnan
  | .kbool => .cbool (s == "True")
  | .kint => .cint ((s.toInt?).getD 0)
  | .kobj => if s = "" then .cnan else .cstr s

/-- Pad each line with empty fields up to the header width (`read_csv`
fills short rows with `NaN`). -/
def padLines (n : Nat) (lines : List (List String)) : List (List String) :=
  lines.map (fun l => l ++ List.replicate (n - l.length) "")

/-- The dtype inferred for each column of the store, in column order. -/
def storeKinds (f : StoreFile) : List ColKind :=
  (List.range f.header.length).map
    (fun j => colKind (j == f.header.indexOf "Date")
      ((padLines f.header.length f.lines).map (fun l => l.getD j "")))

/-- Behavior of `pd.read_csv(HABITS_FILE, parse_dates=['Date'])` on structured
content: fails (raises) when `Date` is not among the headers or a line has
more fields than the header; otherwise pads short lines with empty fields,
infers each column's dtype and types every cell accordingly. -/
def parseStore (f : StoreFile) : Option Table :=
  if "Date" ∉ f.header then none
  else if f.lines.any (fun l => f.header.length < l.length) then none
  else some ⟨f.header, (padLines f.header.length f.lines).map
      (fun l => List.zipWith typeCell (storeKinds f) l)⟩

/-- The observable state of the backing store when `load` runs. -/
inductive Store where
  | missing
  | emptyFile
  | unreadable
  | content (f : StoreFile)
deriving DecidableEq, Repr

/-- The table holding only the `Date` column and no rows. -/
def emptyTable : Table := ⟨["Date"], []⟩

/-- Embedding of `load_habit_data()`: result table paired with whether `st.error` was
shown. A missing store is created fresh; an empty store
(`EmptyDataError`) is silently re-created; any other read/parse failure
is reported and replaced by the `Date`-only table; parsed content is
returned as-is. -/
def load_habit_data (s : Store) : Table × Bool :=
  match s with
  | .missing => (emptyTable, false)
  | .emptyFile => (emptyTable, false)
  | .unreadable => (emptyTable, true)
  | .content f =>
    match parseStore f with
    | some t => (t, false)
    | none => (emptyTable, true)

/-! ## Well-formed tables and load/save canonicalization -/

/-- A `Date` cell as a well-formed table may hold it: a valid parsed date,
or its canonical string rendering. -/
def dateCellOK (c : Cell) : Bool :=
  match c with
  | .cdate p => validDate p
  | .cstr s => match parseDate s with
    | some p => formatDate p == s
    | none => false
  | _ => false

/-- A well-formed row for a table of `n` columns: full length, a
well-formed `Date` cell first, booleans everywhere else. -/
def wellFormedRow (n : Nat) (r : List Cell) : Bool :=
  r.length == n &&
  (match r with
   | c :: rest => dateCellOK c && rest.all isBoolCell
   | [] => false)

/-- A well-formed habit table: `Date` is the first column and every row is
well-formed. -/
def wellFormed (df : Table) : Bool :=
  df.cols.head? == some "Date" && df.rows.all (wellFormedRow df.cols.length)

/-- Boolean/date canonicalization of a `Date` cell: canonical strings are
parsed to the date they denote, parsed dates stay as they are. -/
def canonDateCell (c : Cell) : Cell :=
  match c with
  | .cstr s => match parseDate s with
    | some p => .cdate p
    | none => .cstr s
  | c => c

/-- Canonicalize one row: only the leading `Date` cell changes. -/
def canonRow (r : List Cell) : List Cell :=
  match r with
  | c :: rest => canonDateCell c :: rest
  | [] => []

/-- Canonical form of a table after one save/load cycle. -/
def canonTable (df : Table) : Table :=
  ⟨df.cols, df.rows.map canonRow⟩

/-! ## Date formatting/parsing lemmas -/

theorem digitVal?_digitChar {k : Nat} (h : k < 10) : digitVal? (digitChar k) = some k := by
  interval_cases k <;> decide

/-- Parsing inverts formatting on every valid date. -/
theorem parseDate_formatDate {p : PDate} (h : validDate p = true) :
    parseDate (formatDate p) = some p := by
  have hy : p.year ≤ 2261 := by
    simp only [validDate, Bool.and_eq_true, decide_eq_true_eq] at h; omega
  have hm : p.month ≤ 12 := by
    simp only [validDate, Bool.and_eq_true, decide_eq_true_eq] at h; omega
  have hd : p.day ≤ 31 := by
    have h31 : daysInMonth p.year p.month ≤ 31 := by
      unfold daysInMonth; split <;> [split <;> omega; split <;> omega]
    simp only [validDate, Bool.and_eq_true, decide_eq_true_eq] at h; omega
  show parseDate ⟨_⟩ = some p
  unfold parseDate
  simp only [digitVal?_digitChar (Nat.mod_lt _ (by omega))]
  have e1 : p.year / 1000 % 10 * 1000 + p.year / 100 % 10 * 100
      + p.year / 10 % 10 * 10 + p.year % 10 = p.year := by omega
  have e2 : p.month / 10 % 10 * 10 + p.month % 10 = p.month := by omega
  have e3 : p.day / 10 % 10 * 10 + p.day % 10 = p.day := by omega
  simp only [e1, e2, e3, if_true, and_self, if_pos rfl]
  simp [h]

/-! ## C1: the toggle-path boolean read -/

/-- C1 counterexample: in a table whose stored habit cell is the
non-boolean literal `"maybe"`, the toggle-path read for that cell yields
`true`, not `false` — a non-boolean stored value is not treated as
`false`. -/
theorem current_value_nonbool_not_false :
    (∀ b, cellAt ⟨["Date", "Gym"], [[Cell.cstr "2024-01-01", Cell.cstr "maybe"]]⟩ 0 "Gym"
      ≠ Cell.cbool b) ∧
    current_value ⟨["Date", "Gym"], [[Cell.cstr "2024-01-01", Cell.cstr "maybe"]]⟩ 0 "Gym"
      ≠ false := by
  decide

/-- C1 (amended): the value read for a toggle-path cell is obtained by
Python truthiness and never fails: the read is `false` exactly when the
stored cell is `False`, the empty string, or the integer `0`; every other
stored value (non-empty strings, nonzero integers, timestamps, `NaN`)
reads as `true`. No error is surfaced. -/
theorem current_value_truthiness (df : Table) (i : Nat) (habit : String) :
    current_value df i habit = false ↔
      cellAt df i habit = Cell.cbool false ∨ cellAt df i habit = Cell.cstr "" ∨
        cellAt df i habit = Cell.cint 0 := by
  cases h : cellAt df i habit <;> simp [current_value, pyBool, h]

/-! ## C5 and C6: `add_habit` -/

/-- C5: for an empty proposed name, or one already present as a column,
`add_habit` returns the table completely unchanged and reports a
non-success (warning or error). -/
theorem add_habit_invalid (name : String) (df : Table)
    (h : name = "" ∨ name ∈ df.cols) :
    (add_habit name df).1 = df ∧ (add_habit name df).2 ≠ Report.success := by
  by_cases hm : name ∈ df.cols
  · simp [add_habit, hm]
  · have he : name = "" := h.resolve_right hm
    subst he
    simp [add_habit, hm]

/-- C5 witness at the empty name on the `Date`-only table. -/
theorem add_habit_invalid_witness :
    ("" = "" ∨ "" ∈ emptyTable.cols) ∧
    ((add_habit "" emptyTable).1 = emptyTable ∧
      (add_habit "" emptyTable).2 ≠ Report.success) :=
  ⟨Or.inl rfl, add_habit_invalid "" emptyTable (Or.inl rfl)⟩

/-- C6: for a non-empty name not already a column, `add_habit` appends
exactly one column of that name holding `False` in every pre-existing
row, leaving all other columns and rows unchanged, and reports success;
applying `add_habit` again with the same name leaves the table unchanged
and reports a duplicate. -/
theorem add_habit_new (name : String) (df : Table)
    (h1 : name ≠ "") (h2 : name ∉ df.cols) :
    add_habit name df =
      (⟨df.cols ++ [name], df.rows.map (fun r => r ++ [Cell.cbool false])⟩, Report.success) ∧
    add_habit name (add_habit name df).1 =
      ((add_habit name df).1, Report.duplicate) := by
  have hfst : add_habit name df =
      (⟨df.cols ++ [name], df.rows.map (fun r => r ++ [Cell.cbool false])⟩,
        Report.success) := by
    simp [add_habit, h1, h2]
  refine ⟨hfst, ?_⟩
  rw [hfst]
  have hmem : name ∈ df.cols ++ [name] := by simp
  simp [add_habit, hmem]

/-- C6 witness: adding `Exercise` to a one-row table backfills `False`
and a repeated add reports the duplicate. -/
theorem add_habit_new_witness :
    ("Exercise" ≠ "" ∧
      "Exercise" ∉ (⟨["Date"], [[Cell.cstr "2024-01-01"]]⟩ : Table).cols) ∧
    (add_habit "Exercise" ⟨["Date"], [[Cell.cstr "2024-01-01"]]⟩ =
      (⟨["Date"] ++ ["Exercise"],
        [[Cell.cstr "2024-01-01"]].map (fun r => r ++ [Cell.cbool false])⟩, Report.success) ∧
     add_habit "Exercise" (add_habit "Exercise" ⟨["Date"], [[Cell.cstr "2024-01-01"]]⟩).1 =
      ((add_habit "Exercise" ⟨["Date"], [[Cell.cstr "2024-01-01"]]⟩).1, Report.duplicate)) :=
  ⟨by decide, add_habit_new "Exercise" ⟨["Date"], [[Cell.cstr "2024-01-01"]]⟩
    (by decide) (by decide)⟩

/-! ## Toggle-path helper lemmas -/

theorem getD_set_ne {α : Type} {l : List α} {p q : Nat} (h : p ≠ q) (a d : α) :
    (l.set p a).getD q d = l.getD q d := by
  simp [List.getD_eq_getElem?_getD, List.getElem?_set_ne h]

theorem getD_set_self {α : Type} {l : List α} {p : Nat} (h : p < l.length) (a d : α) :
    (l.set p a).getD p d = a := by
  rw [List.getD_eq_getElem?_getD, List.getElem?_set_self', List.getElem?_eq_getElem h]
  rfl

theorem getD_of_lt {α : Type} {l : List α} {p : Nat} (h : p < l.length) (d : α) :
    l.getD p d = l[p] := by
  rw [List.getD_eq_getElem?_getD, List.getElem?_eq_getElem h]
  rfl

theorem getCol_length (df : Table) (c : String) :
    (getCol df c).length = df.rows.length := by
  simp [getCol]

theorem getCol_getElem (df : Table) (c : String) (j : Nat) (hj : j < df.rows.length)
    {h : j < (getCol df c).length} :
    (getCol df c)[j] = cellAt df j c := by
  simp [getCol, cellAt, List.getElem?_eq_getElem hj]

theorem colIdx_ne {df : Table} {a b : String}
    (ha : a ∈ df.cols) (hb : b ∈ df.cols) (hne : a ≠ b) :
    colIdx df a ≠ colIdx df b := by
  intro h
  exact hne (List.indexOf_inj ha hb |>.mp h)

/-- The columns are untouched by a cell write. -/
theorem setCell_cols (df : Table) (i : Nat) (h : String) (v : Bool) :
    (setCell df i h v).cols = df.cols := rfl

/-! ## C7 and C9: the checkbox-toggle write -/

/-- C7: toggling the cell selected for date `todayStr` and habit column
`habit` leaves every cell in a row of a different date, and every cell of
a different column, exactly as it was. -/
theorem toggle_isolation (df : Table) (todayStr : String) (i j : Nat)
    (habit other : String) (v : Bool)
    (hhab : habit ∈ df.cols) (hoth : other ∈ df.cols)
    (hi : today_index df todayStr = some i)
    (hcase : cellEqStr (cellAt df j "Date") todayStr = false ∨ other ≠ habit) :
    cellAt (setCell df i habit v) j other = cellAt df j other := by
  rw [today_index, List.findIdx?_eq_some_iff_getElem] at hi
  obtain ⟨hlt, hpi, -⟩ := hi
  rw [getCol_length] at hlt
  rw [getCol_getElem df "Date" i hlt] at hpi
  by_cases hji : j = i
  · subst hji
    rcases hcase with hne | hoh
    · rw [hpi] at hne
      exact absurd hne (by simp)
    · show getCellRow ((df.rows.set j _).getD j []) (colIdx (setCell df j habit v) other) = _
      rw [getD_set_self hlt]
      show getCellRow _ (colIdx df other) = _
      unfold getCellRow cellAt getCellRow
      rw [getD_set_ne (colIdx_ne hhab hoth (Ne.symm hoh))]
  · show getCellRow ((df.rows.set i _).getD j []) (colIdx (setCell df i habit v) other) = _
    rw [getD_set_ne (fun h => hji (h.symm))]
    rfl

/-- C7 witness: in a two-row table both dated `2024-01-01`, toggling
`Gym` in the selected row leaves the second row's `Date` cell unchanged. -/
theorem toggle_isolation_witness :
    ("Gym" ∈ (⟨["Date", "Gym"],
        [[Cell.cstr "2024-01-01", Cell.cbool true],
         [Cell.cstr "2024-01-01", Cell.cbool false]]⟩ : Table).cols ∧
     today_index ⟨["Date", "Gym"],
        [[Cell.cstr "2024-01-01", Cell.cbool true],
         [Cell.cstr "2024-01-01", Cell.cbool false]]⟩ "2024-01-01" = some 0) ∧
    cellAt (setCell ⟨["Date", "Gym"],
        [[Cell.cstr "2024-01-01", Cell.cbool true],
         [Cell.cstr "2024-01-01", Cell.cbool false]]⟩ 0 "Gym" false) 1 "Date" =
      cellAt ⟨["Date", "Gym"],
        [[Cell.cstr "2024-01-01", Cell.cbool true],
         [Cell.cstr "2024-01-01", Cell.cbool false]]⟩ 1 "Date" :=
  ⟨⟨by decide, by decide⟩,
    toggle_isolation _ "2024-01-01" 0 1 "Gym" "Date" false
      (by decide) (by decide) (by decide) (Or.inr (by decide))⟩

/-- C9: when several rows carry today's date, the toggle path selects the
first matching row — the selected index matches, every earlier row does
not — and the write changes no row other than the selected one. -/
theorem toggle_writes_first_match (df : Table) (s : String) (i : Nat)
    (habit : String) (v : Bool)
    (hi : today_index df s = some i) :
    cellEqStr (cellAt df i "Date") s = true ∧
    (∀ j, j < i → cellEqStr (cellAt df j "Date") s = false) ∧
    (∀ j, j ≠ i → (setCell df i habit v).rows.getD j [] = df.rows.getD j []) := by
  rw [today_index, List.findIdx?_eq_some_iff_getElem] at hi
  obtain ⟨hlt, hpi, hmin⟩ := hi
  have hlt' : i < df.rows.length := by rw [getCol_length] at hlt; exact hlt
  rw [getCol_getElem df "Date" i hlt'] at hpi
  refine ⟨hpi, ?_, ?_⟩
  · intro j hj
    have hj' : j < df.rows.length := Nat.lt_trans hj hlt'
    have := hmin j hj
    rw [getCol_getElem df "Date" j hj'] at this
    simpa using this
  · intro j hj
    show (df.rows.set i _).getD j [] = _
    rw [getD_set_ne (fun h => hj (h.symm))]

/-- C9 witness on a table with a duplicated date. -/
theorem toggle_writes_first_match_witness :
    (today_index ⟨["Date", "Gym"],
        [[Cell.cstr "2024-01-01", Cell.cbool true],
         [Cell.cstr "2024-01-01", Cell.cbool false]]⟩ "2024-01-01" = some 0) ∧
    (cellEqStr (cellAt ⟨["Date", "Gym"],
        [[Cell.cstr "2024-01-01", Cell.cbool true],
         [Cell.cstr "2024-01-01", Cell.cbool false]]⟩ 0 "Date") "2024-01-01" = true ∧
     (∀ j, j < 0 → cellEqStr (cellAt ⟨["Date", "Gym"],
        [[Cell.cstr "2024-01-01", Cell.cbool true],
         [Cell.cstr "2024-01-01", Cell.cbool false]]⟩ j "Date") "2024-01-01" = false) ∧
     (∀ j, j ≠ 0 → (setCell ⟨["Date", "Gym"],
        [[Cell.cstr "2024-01-01", Cell.cbool true],
         [Cell.cstr "2024-01-01", Cell.cbool false]]⟩ 0 "Gym" true).rows.getD j [] =
        (⟨["Date", "Gym"],
          [[Cell.cstr "2024-01-01", Cell.cbool true],
           [Cell.cstr "2024-01-01", Cell.cbool false]]⟩ : Table).rows.getD j [])) :=
  ⟨by decide, toggle_writes_first_match _ "2024-01-01" 0 "Gym" true (by decide)⟩

/-! ## `ensure_today_exists` helper lemmas -/

theorem convertDateCol_cols (df : Table) : (convertDateCol df).cols = df.cols := by
  unfold convertDateCol
  split <;> rfl

theorem convertDateCol_of_not {df : Table}
    (h : isDatetimeDtype (getCol df "Date") = false) : convertDateCol df = df := by
  simp [convertDateCol, h]

theorem getCellRow_set_dateStr (r : List Cell) (k : Nat) :
    getCellRow (r.set k (cellToDateStr (getCellRow r k))) k
      = cellToDateStr (getCellRow r k) := by
  by_cases hk : k < r.length
  · exact getD_set_self hk _ _
  · have h2 : r[k]? = none := List.getElem?_eq_none (le_of_not_lt hk)
    unfold getCellRow
    rw [List.getD_eq_getElem?_getD, List.getElem?_set_self', h2,
      List.getD_eq_getElem?_getD, h2]
    rfl

/-- The `Date` column after the dtype-dependent `strftime` step. -/
theorem getCol_convert (df : Table) :
    getCol (convertDateCol df) "Date" =
      if isDatetimeDtype (getCol df "Date") then (getCol df "Date").map cellToDateStr
      else getCol df "Date" := by
  by_cases hdt : isDatetimeDtype (getCol df "Date") = true
  · rw [if_pos hdt]
    unfold convertDateCol
    rw [if_pos hdt]
    simp only [getCol, colIdx, List.map_map]
    congr 1
    funext r
    simp only [Function.comp]
    exact getCellRow_set_dateStr r _
  · simp only [Bool.not_eq_true] at hdt
    simp [convertDateCol_of_not hdt, hdt]

theorem getCol_append_row (cols : List String) (rows : List (List Cell))
    (row : List Cell) (c : String) :
    getCol ⟨cols, rows ++ [row]⟩ c
      = getCol ⟨cols, rows⟩ c ++ [getCellRow row (cols.indexOf c)] := by
  simp [getCol, colIdx]

/-- The `Date` cell of the freshly built today row. -/
theorem newTodayRow_date {cols : List String} {s : String} (h : "Date" ∈ cols) :
    getCellRow (newTodayRow cols s) (cols.indexOf "Date") = Cell.cstr s := by
  have hlt : cols.indexOf "Date" < cols.length := List.indexOf_lt_length.mpr h
  unfold getCellRow newTodayRow
  rw [getD_of_lt (by simpa using hlt), List.getElem_map]
  simp [List.getElem_indexOf hlt]

theorem hasToday_of_not_datetime {df : Table} {s : String} (h : hasToday df s = true) :
    isDatetimeDtype (getCol df "Date") = false := by
  unfold hasToday at h
  rw [List.any_eq_true] at h
  obtain ⟨c, hc, hcs⟩ := h
  have hvc : isDateCell c = false := by
    cases c <;> simp_all [cellEqStr, isDateCell]
  have hall : (getCol df "Date").all isDateCell = false := by
    rw [List.all_eq_false]
    exact ⟨c, hc, by simp [hvc]⟩
  simp [isDatetimeDtype, hall]

theorem ensure_today_noop (today : PDate) (df : Table)
    (hdt : isDatetimeDtype (getCol df "Date") = false)
    (ht : hasToday df (formatDate today) = true) :
    ensure_today_exists today df = df := by
  simp [ensure_today_exists, convertDateCol_of_not hdt, ht]

theorem hasToday_ensure (today : PDate) (df : Table) (hD : "Date" ∈ df.cols) :
    hasToday (ensure_today_exists today df) (formatDate today) = true := by
  unfold ensure_today_exists
  by_cases h1 : hasToday (convertDateCol df) (formatDate today) = true
  · simp [h1]
  · simp only [Bool.not_eq_true] at h1
    have hD1 : "Date" ∈ (convertDateCol df).cols := by
      rw [convertDateCol_cols]; exact hD
    simp only [h1, if_false, Bool.false_eq_true]
    unfold hasToday
    rw [getCol_append_row, List.any_append, newTodayRow_date hD1]
    simp [cellEqStr]

/-! ## C4: idempotence of `ensure_today_exists` -/

/-- C4: applying `ensure_today_exists` twice with the same date yields the
same table as applying it once — in particular the second application
appends no duplicate row. -/
theorem ensure_today_idempotent (today : PDate) (df : Table)
    (hD : "Date" ∈ df.cols) :
    ensure_today_exists today (ensure_today_exists today df)
      = ensure_today_exists today df := by
  have h2 := hasToday_ensure today df hD
  exact ensure_today_noop today _ (hasToday_of_not_datetime h2) h2

/-- C4 witness on a one-row datetime table. -/
theorem ensure_today_idempotent_witness :
    ("Date" ∈ (⟨["Date", "Gym"],
      [[Cell.cdate ⟨2024, 1, 1⟩, Cell.cbool true]]⟩ : Table).cols) ∧
    ensure_today_exists ⟨2024, 1, 2⟩
        (ensure_today_exists ⟨2024, 1, 2⟩
          ⟨["Date", "Gym"], [[Cell.cdate ⟨2024, 1, 1⟩, Cell.cbool true]]⟩)
      = ensure_today_exists ⟨2024, 1, 2⟩
          ⟨["Date", "Gym"], [[Cell.cdate ⟨2024, 1, 1⟩, Cell.cbool true]]⟩ :=
  ⟨by decide, ensure_today_idempotent ⟨2024, 1, 2⟩
    ⟨["Date", "Gym"], [[Cell.cdate ⟨2024, 1, 1⟩, Cell.cbool true]]⟩ (by decide)⟩

/-! ## C10: `ensure_today_exists` stringifies a datetime `Date` column -/

/-- C10: on a table whose `Date` column holds datetime values,
`ensure_today_exists` rewrites the entire column to canonical
`YYYY-MM-DD` strings — even when today's row is already present, in which
case no row is appended. -/
theorem ensure_today_stringifies (today : PDate) (df : Table)
    (hD : "Date" ∈ df.cols)
    (hdt : isDatetimeDtype (getCol df "Date") = true) :
    (∀ c ∈ getCol (ensure_today_exists today df) "Date",
        ∃ p, c = Cell.cstr (formatDate p)) ∧
    (Cell.cdate today ∈ getCol df "Date" →
        (ensure_today_exists today df).rows.length = df.rows.length) := by
  have hconv : getCol (convertDateCol df) "Date"
      = (getCol df "Date").map cellToDateStr := by
    rw [getCol_convert, if_pos hdt]
  have hall : ∀ c ∈ getCol df "Date", ∃ p, c = Cell.cdate p := by
    intro c hc
    have : isDateCell c = true := by
      have := (Bool.and_eq_true _ _).mp hdt |>.2
      exact List.all_eq_true.mp this c hc
    cases c <;> simp_all [isDateCell]
  constructor
  · intro c hc
    unfold ensure_today_exists at hc
    by_cases h1 : hasToday (convertDateCol df) (formatDate today) = true
    · simp only [h1, if_true] at hc
      rw [hconv] at hc
      obtain ⟨c0, hc0, rfl⟩ := List.mem_map.mp hc
      obtain ⟨p, rfl⟩ := hall c0 hc0
      exact ⟨p, rfl⟩
    · simp only [h1, if_false, Bool.false_eq_true] at hc
      rw [getCol_append_row] at hc
      rcases List.mem_append.mp hc with hl | hr
      · have hc' : c ∈ getCol (convertDateCol df) "Date" := hl
        rw [hconv] at hc'
        obtain ⟨c0, hc0, rfl⟩ := List.mem_map.mp hc'
        obtain ⟨p, rfl⟩ := hall c0 hc0
        exact ⟨p, rfl⟩
      · have hD1 : "Date" ∈ (convertDateCol df).cols := by
          rw [convertDateCol_cols]; exact hD
        rw [List.mem_singleton, newTodayRow_date hD1] at hr
        exact ⟨today, hr⟩
  · intro hmem
    have ht : hasToday (convertDateCol df) (formatDate today) = true := by
      unfold hasToday
      rw [hconv, List.any_eq_true]
      exact ⟨cellToDateStr (Cell.cdate today), List.mem_map_of_mem _ hmem,
        by simp [cellToDateStr, cellEqStr]⟩
    unfold ensure_today_exists
    rw [if_pos ht]
    unfold convertDateCol
    rw [if_pos hdt]
    simp

/-- C10 witness: a datetime table already holding today keeps its row
count while every `Date` value becomes a canonical string. -/
theorem ensure_today_stringifies_witness :
    ("Date" ∈ (⟨["Date", "Gym"],
        [[Cell.cdate ⟨2024, 1, 1⟩, Cell.cbool true]]⟩ : Table).cols ∧
     isDatetimeDtype (getCol ⟨["Date", "Gym"],
        [[Cell.cdate ⟨2024, 1, 1⟩, Cell.cbool true]]⟩ "Date") = true) ∧
    ((∀ c ∈ getCol (ensure_today_exists ⟨2024, 1, 1⟩
        ⟨["Date", "Gym"], [[Cell.cdate ⟨2024, 1, 1⟩, Cell.cbool true]]⟩) "Date",
        ∃ p, c = Cell.cstr (formatDate p)) ∧
     (Cell.cdate ⟨2024, 1, 1⟩ ∈ getCol ⟨["Date", "Gym"],
        [[Cell.cdate ⟨2024, 1, 1⟩, Cell.cbool true]]⟩ "Date" →
        (ensure_today_exists ⟨2024, 1, 1⟩
          ⟨["Date", "Gym"], [[Cell.cdate ⟨2024, 1, 1⟩, Cell.cbool true]]⟩).rows.length =
          (⟨["Date", "Gym"],
            [[Cell.cdate ⟨2024, 1, 1⟩, Cell.cbool true]]⟩ : Table).rows.length)) :=
  ⟨⟨by decide, by decide⟩, ensure_today_stringifies ⟨2024, 1, 1⟩
    ⟨["Date", "Gym"], [[Cell.cdate ⟨2024, 1, 1⟩, Cell.cbool true]]⟩
    (by decide) (by decide)⟩

/-! ## Store-parsing lemmas -/

theorem indexOf_head {l : List String} {a : String} (h : l.head? = some a) :
    l.indexOf a = 0 := by
  cases l with
  | nil => simp at h
  | cons x xs =>
    simp only [List.head?_cons, Option.some.injEq] at h
    subst h
    exact List.indexOf_cons_self _ _

theorem getD0_pad (l : List String) (k : Nat) :
    (l ++ List.replicate k "").getD 0 "" = l.getD 0 "" := by
  cases l with
  | nil => cases k <;> rfl
  | cons a t => rfl

theorem pad_cons {n : Nat} (hn : 1 ≤ n) (l : List String) :
    ∃ ss, l ++ List.replicate (n - l.length) "" = (l.getD 0 "") :: ss := by
  cases l with
  | nil =>
    refine ⟨List.replicate (n - 1) "", ?_⟩
    simp only [List.nil_append, List.length_nil, Nat.sub_zero]
    cases n with
    | zero => omega
    | succ m => simp [List.replicate_succ]
  | cons a t => exact ⟨_, rfl⟩

theorem padLines_eq (n : Nat) (lines : List (List String))
    (h : ∀ l ∈ lines, l.length = n) :
    padLines n lines = lines := by
  unfold padLines
  conv_rhs => rw [← List.map_id lines]
  apply List.map_congr_left
  intro l hl
  rw [h l hl]
  simp

theorem storeKinds_eq (f : StoreFile) (m : Nat) (hm : f.header.length = m + 1) :
    storeKinds f =
      colKind (0 == f.header.indexOf "Date")
        ((padLines f.header.length f.lines).map (fun l => l.getD 0 "")) ::
      (List.range m).map (fun j => colKind ((j + 1) == f.header.indexOf "Date")
        ((padLines f.header.length f.lines).map (fun l => l.getD (j + 1) ""))) := by
  unfold storeKinds
  rw [hm, List.range_succ_eq_map, List.map_cons, List.map_map]
  rfl

theorem parseStore_eq (f : StoreFile) (hmem : "Date" ∈ f.header)
    (hlen : ∀ l ∈ f.lines, l.length ≤ f.header.length) :
    parseStore f = some ⟨f.header, (padLines f.header.length f.lines).map
      (fun l => List.zipWith typeCell (storeKinds f) l)⟩ := by
  have hany : (f.lines.any (fun l => decide (f.header.length < l.length))) = false := by
    rw [List.any_eq_false]
    intro l hl
    simpa using Nat.not_lt.mpr (hlen l hl)
  unfold parseStore
  rw [if_neg (by simpa using hmem), if_neg (by simp [hany])]

theorem parseStore_some {f : StoreFile} {t : Table} (hp : parseStore f = some t) :
    t = ⟨f.header, (padLines f.header.length f.lines).map
      (fun l => List.zipWith typeCell (storeKinds f) l)⟩ ∧
    "Date" ∈ f.header := by
  unfold parseStore at hp
  split_ifs at hp with h1 h2
  cases hp
  exact ⟨rfl, by simpa using h1⟩

theorem dateCellOK_parse {c : Cell} (h : dateCellOK c = true) :
    (parseDate (cellToCsv c)).isSome = true := by
  cases c with
  | cdate p => simp [cellToCsv, parseDate_formatDate (by simpa [dateCellOK] using h)]
  | cstr s =>
    simp only [dateCellOK] at h
    cases hps : parseDate s with
    | none => rw [hps] at h; simp at h
    | some p => simp [cellToCsv, hps]
  | cbool b => simp [dateCellOK] at h
  | cint n => simp [dateCellOK] at h
  | cnan => simp [dateCellOK] at h

theorem typeCell_kdate_canon {c : Cell} (h : dateCellOK c = true) :
    typeCell ColKind.kdate (cellToCsv c) = canonDateCell c := by
  cases c with
  | cdate p =>
    have hv : validDate p = true := by simpa [dateCellOK] using h
    simp [typeCell, cellToCsv, canonDateCell, parseDate_formatDate hv]
  | cstr s =>
    simp only [dateCellOK] at h
    cases hps : parseDate s with
    | none => rw [hps] at h; simp at h
    | some p => simp [typeCell, cellToCsv, canonDateCell, hps]
  | cbool b => simp [dateCellOK] at h
  | cint n => simp [dateCellOK] at h
  | cnan => simp [dateCellOK] at h

theorem zipWith_kbool (rest : List Cell) (h : rest.all isBoolCell = true) :
    List.zipWith typeCell (List.replicate rest.length ColKind.kbool)
      (rest.map cellToCsv) = rest := by
  induction rest with
  | nil => rfl
  | cons x xs ih =>
    simp only [List.all_cons, Bool.and_eq_true] at h
    obtain ⟨hx, hxs⟩ := h
    obtain ⟨b, rfl⟩ : ∃ b, x = Cell.cbool b := by
      cases x <;> simp_all [isBoolCell]
    simp only [List.length_cons, List.replicate_succ, List.map_cons,
      List.zipWith_cons_cons]
    rw [ih hxs]
    cases b <;> rfl

/-! ## Well-formed tables through save and load -/

theorem wellFormed_head {T : Table} (h : wellFormed T = true) :
    T.cols.head? = some "Date" := by
  unfold wellFormed at h
  rw [Bool.and_eq_true] at h
  exact beq_iff_eq.mp h.1

theorem wellFormed_row {T : Table} (h : wellFormed T = true) {r : List Cell}
    (hr : r ∈ T.rows) :
    r.length = T.cols.length ∧
    ∃ c rest, r = c :: rest ∧ dateCellOK c = true ∧ rest.all isBoolCell = true := by
  unfold wellFormed at h
  rw [Bool.and_eq_true] at h
  have h2 := List.all_eq_true.mp h.2 r hr
  cases r with
  | nil => simp [wellFormedRow] at h2
  | cons c rest =>
    simp only [wellFormedRow, Bool.and_eq_true, beq_iff_eq] at h2
    exact ⟨h2.1, c, rest, rfl, h2.2.1, h2.2.2⟩

theorem save_lines_length {T : Table} (hwf : wellFormed T = true) :
    ∀ l ∈ (save_habit_data T).lines, l.length = T.cols.length := by
  intro l hl
  simp only [save_habit_data, List.mem_map] at hl
  obtain ⟨r, hr, rfl⟩ := hl
  simp [(wellFormed_row hwf hr).1]

theorem save_cols_pos {T : Table} (hwf : wellFormed T = true) :
    1 ≤ T.cols.length := by
  have hhead := wellFormed_head hwf
  cases hc : T.cols with
  | nil => rw [hc] at hhead; simp at hhead
  | cons a t => simp

theorem storeKinds_save {T : Table} (hwf : wellFormed T = true) (hne : T.rows ≠ []) :
    storeKinds (save_habit_data T) =
      ColKind.kdate :: List.replicate (T.cols.length - 1) ColKind.kbool := by
  have hhead := wellFormed_head hwf
  have hn : 1 ≤ T.cols.length := save_cols_pos hwf
  have hidx : (save_habit_data T).header.indexOf "Date" = 0 :=
    indexOf_head (by simpa [save_habit_data] using hhead)
  have hpad : padLines (save_habit_data T).header.length (save_habit_data T).lines
      = (save_habit_data T).lines :=
    padLines_eq _ _ (by simpa [save_habit_data] using save_lines_length hwf)
  have hemp : ((save_habit_data T).lines.map
      (fun l => l.getD 0 "")).isEmpty = false := by
    simp [save_habit_data, hne]
  rw [storeKinds_eq _ (T.cols.length - 1) (by simp only [save_habit_data]; omega)]
  rw [hidx, hpad]
  congr 1
  · show colKind true _ = ColKind.kdate
    unfold colKind
    rw [if_pos ?_]
    rw [Bool.and_eq_true, Bool.and_eq_true]
    refine ⟨⟨rfl, by rw [hemp]; rfl⟩, ?_⟩
    rw [List.all_eq_true]
    intro s hs
    simp only [save_habit_data, List.mem_map] at hs
    obtain ⟨l, hl, rfl⟩ := hs
    obtain ⟨r, hr, rfl⟩ := hl
    obtain ⟨hlen, c, rest, rfl, hok, hball⟩ := wellFormed_row hwf hr
    simp only [List.map_cons, List.getD_cons_zero]
    exact dateCellOK_parse hok
  · have hper : ∀ j ∈ List.range (T.cols.length - 1),
        colKind ((j + 1) == 0)
          ((save_habit_data T).lines.map (fun l => l.getD (j + 1) ""))
          = ColKind.kbool := by
      intro j hj
      have hjlt : j < T.cols.length - 1 := List.mem_range.mp hj
      unfold colKind
      rw [if_neg (by simp), if_pos ?_]
      rw [Bool.and_eq_true]
      constructor
      · have : ((save_habit_data T).lines.map
            (fun l => l.getD (j + 1) "")).isEmpty = false := by
          simp [save_habit_data, hne]
        rw [this]; rfl
      · rw [List.all_eq_true]
        intro s hs
        simp only [save_habit_data, List.mem_map] at hs
        obtain ⟨l, hl, rfl⟩ := hs
        obtain ⟨r, hr, rfl⟩ := hl
        obtain ⟨hlen, c, rest, rfl, hok, hball⟩ := wellFormed_row hwf hr
        simp only [List.map_cons, List.getD_cons_succ]
        have hjr : j < rest.length := by
          simp only [List.length_cons] at hlen; omega
        rw [getD_of_lt (by simpa using hjr), List.getElem_map]
        have hmem : rest[j] ∈ rest := List.getElem_mem _
        have hb := List.all_eq_true.mp hball _ hmem
        obtain ⟨b, hbb⟩ : ∃ b, rest[j] = Cell.cbool b := by
          cases hx : rest[j] <;> rw [hx] at hb <;> simp_all [isBoolCell]
        rw [hbb]
        cases b <;> rfl
    calc (List.range (T.cols.length - 1)).map
          (fun j => colKind ((j + 1) == 0)
            ((save_habit_data T).lines.map (fun l => l.getD (j + 1) "")))
        = (List.range (T.cols.length - 1)).map (fun _ => ColKind.kbool) :=
          List.map_congr_left hper
      _ = List.replicate (T.cols.length - 1) ColKind.kbool := by
          rw [List.map_const', List.length_range]

theorem roundtrip_rows {T : Table} (hwf : wellFormed T = true) (hne : T.rows ≠ []) :
    ((save_habit_data T).lines).map
      (fun l => List.zipWith typeCell (storeKinds (save_habit_data T)) l)
      = T.rows.map canonRow := by
  rw [storeKinds_save hwf hne]
  simp only [save_habit_data, List.map_map]
  apply List.map_congr_left
  intro r hr
  obtain ⟨hlen, c, rest, rfl, hok, hball⟩ := wellFormed_row hwf hr
  have hrl : rest.length = T.cols.length - 1 := by
    simp only [List.length_cons] at hlen; omega
  simp only [Function.comp_apply, List.map_cons, List.zipWith_cons_cons, canonRow]
  rw [← hrl, typeCell_kdate_canon hok, zipWith_kbool rest hball]

theorem parseStore_save {T : Table} (hwf : wellFormed T = true) :
    parseStore (save_habit_data T) = some (canonTable T) := by
  have hhead := wellFormed_head hwf
  have hmem : "Date" ∈ (save_habit_data T).header := by
    simp only [save_habit_data]
    exact List.mem_of_mem_head? (by simp [hhead])
  have hps := parseStore_eq (save_habit_data T) hmem
    (fun l hl => le_of_eq (by simpa [save_habit_data] using save_lines_length hwf l hl))
  rw [hps, padLines_eq _ _ (by simpa [save_habit_data] using save_lines_length hwf)]
  by_cases hne : T.rows = []
  · simp [save_habit_data, canonTable, hne]
  · rw [roundtrip_rows hwf hne]
    rfl

/-! ## C3: save/load round trip -/

/-- C3: saving a well-formed table and loading it back returns the table
up to boolean/date canonicalization (booleans survive exactly; canonical
`Date` entries come back as the parsed dates they denote), with no error
reported, the columns in their original order, and no row lost. -/
theorem load_save_roundtrip (T : Table) (hwf : wellFormed T = true) :
    load_habit_data (Store.content (save_habit_data T)) = (canonTable T, false) ∧
    (canonTable T).cols = T.cols ∧
    (canonTable T).rows.length = T.rows.length := by
  refine ⟨?_, rfl, by simp [canonTable]⟩
  simp [load_habit_data, parseStore_save hwf]

/-- C3 witness on a one-row table with a timestamp date and one habit. -/
theorem load_save_roundtrip_witness :
    wellFormed ⟨["Date", "Gym"], [[Cell.cdate ⟨2024, 1, 1⟩, Cell.cbool true]]⟩ = true ∧
    (load_habit_data (Store.content (save_habit_data
        ⟨["Date", "Gym"], [[Cell.cdate ⟨2024, 1, 1⟩, Cell.cbool true]]⟩)) =
      (canonTable ⟨["Date", "Gym"], [[Cell.cdate ⟨2024, 1, 1⟩, Cell.cbool true]]⟩, false) ∧
     (canonTable ⟨["Date", "Gym"], [[Cell.cdate ⟨2024, 1, 1⟩, Cell.cbool true]]⟩).cols =
      (⟨["Date", "Gym"], [[Cell.cdate ⟨2024, 1, 1⟩, Cell.cbool true]]⟩ : Table).cols ∧
     (canonTable ⟨["Date", "Gym"], [[Cell.cdate ⟨2024, 1, 1⟩, Cell.cbool true]]⟩).rows.length =
      (⟨["Date", "Gym"], [[Cell.cdate ⟨2024, 1, 1⟩, Cell.cbool true]]⟩ : Table).rows.length) :=
  ⟨by decide, load_save_roundtrip
    ⟨["Date", "Gym"], [[Cell.cdate ⟨2024, 1, 1⟩, Cell.cbool true]]⟩ (by decide)⟩

/-! ## C2: what `load` does to the `Date` column -/

/-- C2 counterexample: the store holding the single canonical date
`2024-01-01` parses successfully and `load` reports no error, yet the
returned `Date` value is a parsed timestamp, not a `YYYY-MM-DD` string. -/
theorem load_dates_not_strings :
    (load_habit_data (Store.content ⟨["Date"], [["2024-01-01"]]⟩)).2 = false ∧
    ((getCol (load_habit_data (Store.content ⟨["Date"], [["2024-01-01"]]⟩)).1 "Date").all
      isStrCell) = false := by
  decide

/-- C2 (amended): for every existing backing store that parses
successfully (here with `Date` leading the header, at least one data line,
and every line's first field a parseable date), `load` returns the parsed
table with no error and no lost line, and every `Date` value is a parsed
date (datetime) — string normalization happens later, in
`ensure_today_exists`, not in `load`. -/
theorem load_returns_parsed_dates (f : StoreFile) (t : Table)
    (hp : parseStore f = some t)
    (hh : f.header.head? = some "Date")
    (hne : f.lines ≠ [])
    (hfirst : ∀ l ∈ f.lines, (parseDate (l.getD 0 "")).isSome = true) :
    load_habit_data (Store.content f) = (t, false) ∧
    t.cols = f.header ∧
    t.rows.length = f.lines.length ∧
    ∀ c ∈ getCol t "Date", isDateCell c = true := by
  obtain ⟨ht, hmem⟩ := parseStore_some hp
  have hn : 1 ≤ f.header.length := by
    cases hc : f.header with
    | nil => rw [hc] at hh; simp at hh
    | cons a s => simp [hc]
  have hidx : f.header.indexOf "Date" = 0 := indexOf_head hh
  have hcells0 : (padLines f.header.length f.lines).map (fun l => l.getD 0 "")
      = f.lines.map (fun l => l.getD 0 "") := by
    unfold padLines
    rw [List.map_map]
    apply List.map_congr_left
    intro l hl
    exact getD0_pad l _
  have hk : storeKinds f = ColKind.kdate ::
      (List.range (f.header.length - 1)).map
        (fun j => colKind ((j + 1) == 0)
          ((padLines f.header.length f.lines).map (fun l => l.getD (j + 1) ""))) := by
    rw [storeKinds_eq f (f.header.length - 1) (by omega), hidx]
    congr 1
    rw [hcells0]
    show colKind true _ = ColKind.kdate
    unfold colKind
    rw [if_pos ?_]
    rw [Bool.and_eq_true, Bool.and_eq_true]
    refine ⟨⟨rfl, ?_⟩, ?_⟩
    · have he : (f.lines.map (fun l => l.getD 0 "")).isEmpty = false := by
        simp [hne]
      rw [he]; rfl
    · rw [List.all_eq_true]
      intro s hs
      obtain ⟨l, hl, rfl⟩ := List.mem_map.mp hs
      exact hfirst l hl
  refine ⟨by simp [load_habit_data, hp], by rw [ht], by rw [ht]; simp [padLines], ?_⟩
  intro c hc
  rw [ht] at hc
  simp only [getCol, colIdx, List.map_map, List.mem_map] at hc
  obtain ⟨l, hl, rfl⟩ := hc
  simp only [Function.comp_apply]
  rw [show (⟨f.header, (padLines f.header.length f.lines).map
      (fun l => List.zipWith typeCell (storeKinds f) l)⟩ : Table).cols.indexOf "Date"
      = 0 from hidx]
  simp only [padLines, List.mem_map] at hl
  obtain ⟨l0, hl0, rfl⟩ := hl
  obtain ⟨ss, hss⟩ := pad_cons hn l0
  rw [hss, hk, List.zipWith_cons_cons]
  unfold getCellRow
  rw [List.getD_cons_zero]
  obtain ⟨p, hpd⟩ := Option.isSome_iff_exists.mp (hfirst l0 hl0)
  rw [List.getD_eq_getElem?_getD] at hpd
  simp [typeCell, hpd, isDateCell]

/-- C2 witness on a two-line store of canonical dates. -/
theorem load_returns_parsed_dates_witness :
    (parseStore ⟨["Date"], [["2024-01-01"], ["2024-01-02"]]⟩ =
        some ⟨["Date"], [[Cell.cdate ⟨2024, 1, 1⟩], [Cell.cdate ⟨2024, 1, 2⟩]]⟩ ∧
      (⟨["Date"], [["2024-01-01"], ["2024-01-02"]]⟩ : StoreFile).header.head? =
        some "Date" ∧
      (⟨["Date"], [["2024-01-01"], ["2024-01-02"]]⟩ : StoreFile).lines ≠ [] ∧
      ∀ l ∈ (⟨["Date"], [["2024-01-01"], ["2024-01-02"]]⟩ : StoreFile).lines,
        (parseDate (l.getD 0 "")).isSome = true) ∧
    (load_habit_data (Store.content ⟨["Date"], [["2024-01-01"], ["2024-01-02"]]⟩) =
        (⟨["Date"], [[Cell.cdate ⟨2024, 1, 1⟩], [Cell.cdate ⟨2024, 1, 2⟩]]⟩, false) ∧
     (⟨["Date"], [[Cell.cdate ⟨2024, 1, 1⟩], [Cell.cdate ⟨2024, 1, 2⟩]]⟩ : Table).cols =
        (⟨["Date"], [["2024-01-01"], ["2024-01-02"]]⟩ : StoreFile).header ∧
     (⟨["Date"], [[Cell.cdate ⟨2024, 1, 1⟩], [Cell.cdate ⟨2024, 1, 2⟩]]⟩ : Table).rows.length =
        (⟨["Date"], [["2024-01-01"], ["2024-01-02"]]⟩ : StoreFile).lines.length ∧
     ∀ c ∈ getCol ⟨["Date"], [[Cell.cdate ⟨2024, 1, 1⟩], [Cell.cdate ⟨2024, 1, 2⟩]]⟩ "Date",
        isDateCell c = true) :=
  ⟨⟨by decide, by decide, by decide, by decide⟩,
    load_returns_parsed_dates ⟨["Date"], [["2024-01-01"], ["2024-01-02"]]⟩
      ⟨["Date"], [[Cell.cdate ⟨2024, 1, 1⟩], [Cell.cdate ⟨2024, 1, 2⟩]]⟩
      (by decide) (by decide) (by decide) (by decide)⟩

/-! ## C8: load-failure handling -/

/-- C8 counterexample: for a backing store that exists but is empty,
`load` returns the `Date`-only table but reports no error — the
`EmptyDataError` branch silently re-creates the store. -/
theorem load_emptyFile_silent :
    (load_habit_data Store.emptyFile).1 = emptyTable ∧
    (load_habit_data Store.emptyFile).2 ≠ true := by
  decide

/-- C8 (amended): `load` never raises: on every failing store it returns
the safe empty `Date`-only table; the error is reported for unreadable or
corrupt (unparseable) stores, while an empty store is silently
re-created without any report. -/
theorem load_failure_safe (s : Store)
    (h : s = Store.emptyFile ∨ s = Store.unreadable ∨
         ∃ f, s = Store.content f ∧ parseStore f = none) :
    (load_habit_data s).1 = emptyTable ∧
    ((load_habit_data s).2 = true ↔ s ≠ Store.emptyFile) := by
  rcases h with rfl | rfl | ⟨f, rfl, hf⟩
  · simp [load_habit_data]
  · simp [load_habit_data]
  · simp [load_habit_data, hf]

/-- C8 witness at the unreadable store. -/
theorem load_failure_safe_witness :
    (Store.unreadable = Store.emptyFile ∨ Store.unreadable = Store.unreadable ∨
      ∃ f, Store.unreadable = Store.content f ∧ parseStore f = none) ∧
    ((load_habit_data Store.unreadable).1 = emptyTable ∧
     ((load_habit_data Store.unreadable).2 = true ↔
        Store.unreadable ≠ Store.emptyFile)) :=
  ⟨Or.inr (Or.inl rfl), load_failure_safe Store.unreadable (Or.inr (Or.inl rfl))⟩
